import Mathlib

/-!
Shallow embedding of the chocapix-server ledger core (`bars_core`):
the `Account` record, per-bar settings, the overdraft-accrual routine
`Bar.apply_agios`, `Bar.save` with its `BarSettings` companion row,
`Bar.count_accounts`, and the account-ranking endpoint.

Monetary amounts (Django `FloatField`) are modelled as rationals; dates
(`datetime.date`) as integer day numbers, with `date.today()` passed in
explicitly as `today`.  `account.save()` calls are counted in the result
record, and each submitted agios transaction amount is recorded in a list.
-/

/-- `bars_core.models.account.Account`: one (bar, owner) pair with a balance,
a nullable overdraft-start date and a soft-delete flag. -/
structure Account where
  bar : String
  owner : String
  money : ℚ
  overdrawn_since : Option ℤ
  deleted : Bool
deriving Repr, DecidableEq

/-- `bars_core.models.bar.BarSettings`: the accrual-policy fields. -/
structure BarSettings where
  agios_enabled : Bool
  agios_threshold : ℚ
  agios_factor : ℚ
deriving Repr, DecidableEq

/-- `bars_core.models.bar.Bar`, carrying its 1:1 `settings` row
(Django's `self.settings` reverse relation). -/
structure Bar where
  id : String
  name : String
  settings : BarSettings
deriving Repr, DecidableEq

/-- Result of one `apply_agios` call: the (in-memory) account record after
the call, the returned fee, the amounts of the agios transactions submitted
through `makeAgiosTransaction`, and the number of `account.save()` calls. -/
structure AgiosResult where
  account : Account
  fee : ℚ
  feeTxns : List ℚ
  saves : ℕ
deriving Repr, DecidableEq

/-- `Bar.apply_agios` (bars_core/models/bar.py, lines 27-46), translated
branch for branch.  `date.today() - account.overdrawn_since` is a whole
number of days compared against `timedelta(agios_threshold)`. -/
def Bar.apply_agios (self : Bar) (today : ℤ) (account : Account) : AgiosResult :=
  if 0 ≤ account.money ∧ account.overdrawn_since.isSome then
    { account := { account with overdrawn_since := none },
      fee := 0, feeTxns := [], saves := 1 }
  else if account.money < 0 then
    let account1 : Account :=
      if account.overdrawn_since.isSome then account
      else { account with overdrawn_since := some today }
    let saves1 : ℕ := if account.overdrawn_since.isSome then 0 else 1
    let since : ℤ := account1.overdrawn_since.getD today
    if self.settings.agios_enabled = true ∧
        self.settings.agios_threshold ≤ ((today - since : ℤ) : ℚ) then
      let delta : ℚ := |account1.money| * self.settings.agios_factor
      { account := account1, fee := delta, feeTxns := [delta], saves := saves1 }
    else
      { account := account1, fee := 0, feeTxns := [], saves := saves1 }
  else
    { account := account, fee := 0, feeTxns := [], saves := 0 }

/-- `Account.account_set` of a bar: the accounts whose `bar` field is it. -/
def account_set (barId : String) (accounts : List Account) : List Account :=
  accounts.filter (fun a => a.bar == barId)

/-- `Bar.count_accounts` (bars_core/models/bar.py, lines 48-52):
`self.account_set.filter(deleted=False).count()`. -/
def Bar.count_accounts (self : Bar) (accounts : List Account) : ℕ :=
  ((account_set self.id accounts).filter (fun a => a.deleted == false)).length

/-- Persisted core tables touched by `Bar.save`: the bar rows and the
`BarSettings` rows, each represented by the list of bar ids keying them. -/
structure CoreDB where
  bars : List String
  settingsBars : List String
deriving Repr, DecidableEq

/-- `BarSettings.objects.get_or_create(bar=self)`: create the settings row
keyed by the bar only when none exists. -/
def barSettingsGetOrCreate (db : CoreDB) (barId : String) : CoreDB :=
  if barId ∈ db.settingsBars then db
  else { db with settingsBars := barId :: db.settingsBars }

/-- `Bar.save` (bars_core/models/bar.py, lines 22-25): `super().save()`
persists the bar row, then `BarSettings.objects.get_or_create(bar=self)`. -/
def Bar.save (self : Bar) (db : CoreDB) : CoreDB :=
  let db1 : CoreDB :=
    { db with bars := if self.id ∈ db.bars then db.bars else self.id :: db.bars }
  barSettingsGetOrCreate db1 self.id

/-- A request as seen by `AccountViewSet.ranking`: only its bar context
matters here (`None` when no valid bar scope is attached). -/
structure RankRequest where
  bar : Option String
deriving Repr, DecidableEq

/-- Modelled from the spec: `bars_stats.utils.compute_account_ranking` is not
under src/.  Per the spec, the stats layer produces a bar-scoped aggregate
grouped by account and yields no ranking when the request carries no valid
bar context; we return `none` without a bar and the bar's accounts as
(owner, balance) entries otherwise. -/
def compute_account_ranking (req : RankRequest) (accounts : List Account) :
    Option (List (String × ℚ)) :=
  match req.bar with
  | none => none
  | some b => some ((account_set b accounts).map (fun a => (a.owner, a.money)))

/-- HTTP outcome of the ranking endpoint: a 200 response with a ranking
body, or an `HttpResponseBadRequest` with a message. -/
inductive RankingHttpResult where
  | ok (body : List (String × ℚ)) (status : ℕ)
  | badRequest (msg : String)
deriving Repr, DecidableEq

/-- `AccountViewSet.ranking` (bars_core/models/account.py, lines 82-89). -/
def AccountViewSet.ranking (req : RankRequest) (accounts : List Account) :
    RankingHttpResult :=
  match compute_account_ranking req accounts with
  | none => .badRequest "I can only give a ranking within a bar"
  | some r => .ok r 200

/-! ### Case lemmas for `Bar.apply_agios` -/

/-- Balance back to `≥ 0` with the overdraft date set: clear it and save. -/
theorem apply_agios_recover (self : Bar) (today d : ℤ) (acc : Account)
    (hm : 0 ≤ acc.money) (hs : acc.overdrawn_since = some d) :
    self.apply_agios today acc =
      { account := { acc with overdrawn_since := none },
        fee := 0, feeTxns := [], saves := 1 } := by
  simp [Bar.apply_agios, hs, hm]

/-- Balance `≥ 0` and no overdraft date: nothing happens. -/
theorem apply_agios_calm (self : Bar) (today : ℤ) (acc : Account)
    (hm : 0 ≤ acc.money) (hs : acc.overdrawn_since = none) :
    self.apply_agios today acc =
      { account := acc, fee := 0, feeTxns := [], saves := 0 } := by
  simp [Bar.apply_agios, hs, not_lt.mpr hm]

/-- Overdrawn with the date already set: charge iff enabled and the elapsed
days reach the threshold; no save either way. -/
theorem apply_agios_overdrawn_set (self : Bar) (today d : ℤ) (acc : Account)
    (hm : acc.money < 0) (hs : acc.overdrawn_since = some d) :
    self.apply_agios today acc =
      if self.settings.agios_enabled = true ∧
          self.settings.agios_threshold ≤ ((today - d : ℤ) : ℚ) then
        { account := acc, fee := |acc.money| * self.settings.agios_factor,
          feeTxns := [|acc.money| * self.settings.agios_factor], saves := 0 }
      else
        { account := acc, fee := 0, feeTxns := [], saves := 0 } := by
  simp [Bar.apply_agios, hs, hm, not_le.mpr hm]

/-- Overdrawn with the date unset: it is set to `today` and saved, and the
threshold is checked against zero elapsed days in the same run. -/
theorem apply_agios_overdrawn_new (self : Bar) (today : ℤ) (acc : Account)
    (hm : acc.money < 0) (hs : acc.overdrawn_since = none) :
    self.apply_agios today acc =
      if self.settings.agios_enabled = true ∧ self.settings.agios_threshold ≤ 0 then
        { account := { acc with overdrawn_since := some today },
          fee := |acc.money| * self.settings.agios_factor,
          feeTxns := [|acc.money| * self.settings.agios_factor], saves := 1 }
      else
        { account := { acc with overdrawn_since := some today },
          fee := 0, feeTxns := [], saves := 1 } := by
  simp [Bar.apply_agios, hs, hm, not_le.mpr hm]

/-! ### Claim theorems -/

/-- C1: for an account with negative balance and the overdraft date set,
`apply_agios` submits one fee transaction of `|balance| * agios_factor` and
returns that amount exactly when accrual is enabled and the elapsed days
reach `agios_threshold`; otherwise it submits no fee transaction and
returns zero. -/
theorem apply_agios_overdrawn_fee_spec (self : Bar) (today d : ℤ) (acc : Account)
    (hm : acc.money < 0) (hs : acc.overdrawn_since = some d) :
    ((self.settings.agios_enabled = true ∧
        self.settings.agios_threshold ≤ ((today - d : ℤ) : ℚ)) →
      (self.apply_agios today acc).feeTxns =
        [|acc.money| * self.settings.agios_factor] ∧
      (self.apply_agios today acc).fee = |acc.money| * self.settings.agios_factor) ∧
    (¬(self.settings.agios_enabled = true ∧
        self.settings.agios_threshold ≤ ((today - d : ℤ) : ℚ)) →
      (self.apply_agios today acc).feeTxns = [] ∧
      (self.apply_agios today acc).fee = 0) := by
  rw [apply_agios_overdrawn_set self today d acc hm hs]
  by_cases hc : self.settings.agios_enabled = true ∧
      self.settings.agios_threshold ≤ ((today - d : ℤ) : ℚ)
  · rw [if_pos hc]
    exact ⟨fun _ => ⟨rfl, rfl⟩, fun hn => absurd hc hn⟩
  · rw [if_neg hc]
    exact ⟨fun h => absurd h hc, fun _ => ⟨rfl, rfl⟩⟩

/-- C1 witness: balance -10, factor 0.05, threshold 2 met on day 5 →
fee 0.5 returned and submitted. -/
theorem apply_agios_overdrawn_fee_spec_witness :
    (Bar.apply_agios ⟨"b", "B", ⟨true, 2, 1/20⟩⟩ 5
        ⟨"b", "u", -10, some 0, false⟩).fee = 1/2 ∧
    (Bar.apply_agios ⟨"b", "B", ⟨true, 2, 1/20⟩⟩ 5
        ⟨"b", "u", -10, some 0, false⟩).feeTxns = [1/2] := by
  have h := apply_agios_overdrawn_fee_spec ⟨"b", "B", ⟨true, 2, 1/20⟩⟩ 5 0
    ⟨"b", "u", -10, some 0, false⟩ (by norm_num) rfl
  have h2 := h.1 ⟨rfl, by norm_num⟩
  refine ⟨?_, ?_⟩
  · rw [h2.2]; norm_num
  · rw [h2.1]; norm_num

/-- C2 counterexample: with balance -10, the overdraft date unset, accrual
enabled and `agios_threshold = 0`, the very first `apply_agios` run already
submits a fee of 0.5 and returns it, instead of returning zero with no fee
transaction as the claim states for every settings value. -/
theorem apply_agios_zero_threshold_first_run_cex :
    (Bar.apply_agios ⟨"b", "B", ⟨true, 0, 1/20⟩⟩ 7
        ⟨"b", "u", -10, none, false⟩).fee = 1/2 ∧
    (Bar.apply_agios ⟨"b", "B", ⟨true, 0, 1/20⟩⟩ 7
        ⟨"b", "u", -10, none, false⟩).feeTxns = [1/2] ∧
    ¬ (Bar.apply_agios ⟨"b", "B", ⟨true, 0, 1/20⟩⟩ 7
        ⟨"b", "u", -10, none, false⟩).fee = 0 := by
  norm_num [Bar.apply_agios]

/-- C2 amended: a first `apply_agios` call on a negative-balance account with
the overdraft date unset sets the date to today and persists it, and returns
zero with no fee transaction provided accrual is disabled or the threshold is
positive; with accrual enabled and a threshold ≤ 0 the same run charges. -/
theorem apply_agios_first_overdraft_marks_date (self : Bar) (today : ℤ)
    (acc : Account) (hm : acc.money < 0) (hs : acc.overdrawn_since = none) :
    (self.apply_agios today acc).account.overdrawn_since = some today ∧
    1 ≤ (self.apply_agios today acc).saves ∧
    ((self.settings.agios_enabled = false ∨ 0 < self.settings.agios_threshold) →
      (self.apply_agios today acc).fee = 0 ∧
      (self.apply_agios today acc).feeTxns = []) := by
  rw [apply_agios_overdrawn_new self today acc hm hs]
  by_cases hc : self.settings.agios_enabled = true ∧ self.settings.agios_threshold ≤ 0
  · refine ⟨by simp [hc], by simp [hc], ?_⟩
    rintro (hdis | hpos)
    · exact absurd hc.1 (by simp [hdis])
    · exact absurd hc.2 (not_le.mpr hpos)
  · simp [hc]

/-- C2 amended witness: threshold 2 (positive), so the first run marks the
date, saves, and charges nothing. -/
theorem apply_agios_first_overdraft_marks_date_witness :
    (Bar.apply_agios ⟨"b", "B", ⟨true, 2, 1/20⟩⟩ 3
        ⟨"b", "u", -10, none, false⟩).account.overdrawn_since = some 3 ∧
    (Bar.apply_agios ⟨"b", "B", ⟨true, 2, 1/20⟩⟩ 3
        ⟨"b", "u", -10, none, false⟩).fee = 0 := by
  have h := apply_agios_first_overdraft_marks_date ⟨"b", "B", ⟨true, 2, 1/20⟩⟩ 3
    ⟨"b", "u", -10, none, false⟩ (by norm_num) rfl
  exact ⟨h.1, (h.2.2 (Or.inr (by norm_num))).1⟩

/-- C3: once the balance is back to ≥ 0, the next `apply_agios` clears the
overdraft date, persists the account, submits no fee and returns zero. -/
theorem apply_agios_recovery_clears_date (self : Bar) (today d : ℤ)
    (acc : Account) (hm : 0 ≤ acc.money) (hs : acc.overdrawn_since = some d) :
    (self.apply_agios today acc).account.overdrawn_since = none ∧
    (self.apply_agios today acc).saves = 1 ∧
    (self.apply_agios today acc).feeTxns = [] ∧
    (self.apply_agios today acc).fee = 0 := by
  rw [apply_agios_recover self today d acc hm hs]
  exact ⟨rfl, rfl, rfl, rfl⟩

/-- C3 witness: balance 5 with the date set on day 0, evaluated on day 9. -/
theorem apply_agios_recovery_clears_date_witness :
    (Bar.apply_agios ⟨"b", "B", ⟨true, 2, 1/20⟩⟩ 9
        ⟨"b", "u", 5, some 0, false⟩).account.overdrawn_since = none ∧
    (Bar.apply_agios ⟨"b", "B", ⟨true, 2, 1/20⟩⟩ 9
        ⟨"b", "u", 5, some 0, false⟩).fee = 0 := by
  have h := apply_agios_recovery_clears_date ⟨"b", "B", ⟨true, 2, 1/20⟩⟩ 9 0
    ⟨"b", "u", 5, some 0, false⟩ (by norm_num) rfl
  exact ⟨h.1, h.2.2.2⟩

/-- C4: on a non-negative balance with the overdraft date already null,
`apply_agios` changes nothing: the account record is returned unchanged,
no save happens, no fee transaction is submitted and zero is returned. -/
theorem apply_agios_nonneg_frame (self : Bar) (today : ℤ) (acc : Account)
    (hm : 0 ≤ acc.money) (hs : acc.overdrawn_since = none) :
    (self.apply_agios today acc).account = acc ∧
    (self.apply_agios today acc).account.overdrawn_since = none ∧
    (self.apply_agios today acc).feeTxns = [] ∧
    (self.apply_agios today acc).fee = 0 ∧
    (self.apply_agios today acc).saves = 0 := by
  rw [apply_agios_calm self today acc hm hs]
  exact ⟨rfl, hs, rfl, rfl, rfl⟩

/-- C4 witness: balance 3, date null, evaluated on day 4. -/
theorem apply_agios_nonneg_frame_witness :
    (Bar.apply_agios ⟨"b", "B", ⟨true, 2, 1/20⟩⟩ 4
        ⟨"b", "u", 3, none, false⟩).account = ⟨"b", "u", 3, none, false⟩ ∧
    (Bar.apply_agios ⟨"b", "B", ⟨true, 2, 1/20⟩⟩ 4
        ⟨"b", "u", 3, none, false⟩).fee = 0 := by
  have h := apply_agios_nonneg_frame ⟨"b", "B", ⟨true, 2, 1/20⟩⟩ 4
    ⟨"b", "u", 3, none, false⟩ (by norm_num) rfl
  exact ⟨h.1, h.2.2.2.1⟩

/-- C5: with accrual enabled and `agios_threshold = 2`, an account overdrawn
since day 0 is not charged by the run on day 1 (returns zero, no fee
transaction) and is charged by the run on day 2. -/
theorem apply_agios_threshold_boundary (self : Bar) (acc : Account)
    (hm : acc.money < 0) (hs : acc.overdrawn_since = some 0)
    (hen : self.settings.agios_enabled = true)
    (hth : self.settings.agios_threshold = 2) :
    ((self.apply_agios 1 acc).feeTxns = [] ∧ (self.apply_agios 1 acc).fee = 0) ∧
    (self.apply_agios 2 acc).feeTxns ≠ [] := by
  constructor
  · rw [apply_agios_overdrawn_set self 1 0 acc hm hs, if_neg]
    · exact ⟨rfl, rfl⟩
    · rintro ⟨-, h2⟩
      rw [hth] at h2
      norm_num at h2
  · rw [apply_agios_overdrawn_set self 2 0 acc hm hs,
      if_pos ⟨hen, by rw [hth]; norm_num⟩]
    simp

/-- C5 witness: balance -10, threshold 2, overdrawn since day 0. -/
theorem apply_agios_threshold_boundary_witness :
    (Bar.apply_agios ⟨"b", "B", ⟨true, 2, 1/20⟩⟩ 1
        ⟨"b", "u", -10, some 0, false⟩).fee = 0 ∧
    (Bar.apply_agios ⟨"b", "B", ⟨true, 2, 1/20⟩⟩ 2
        ⟨"b", "u", -10, some 0, false⟩).feeTxns ≠ [] := by
  have h := apply_agios_threshold_boundary ⟨"b", "B", ⟨true, 2, 1/20⟩⟩
    ⟨"b", "u", -10, some 0, false⟩ (by norm_num) rfl rfl rfl
  exact ⟨h.1.2, h.2⟩

/-- C6 counterexample: on an account whose overdraft date is unset, with
accrual enabled and `agios_threshold = 0`, the fee-charging branch is taken
in the same first run and the overdraft date changes from null to today, so
"the overdraft date after the call equals its value before" fails there. -/
theorem apply_agios_fee_branch_first_run_cex :
    (Bar.apply_agios ⟨"c", "C", ⟨true, 0, 1/20⟩⟩ 9
        ⟨"c", "v", -4, none, false⟩).feeTxns ≠ [] ∧
    ¬ (Bar.apply_agios ⟨"c", "C", ⟨true, 0, 1/20⟩⟩ 9
        ⟨"c", "v", -4, none, false⟩).account.overdrawn_since =
      (⟨"c", "v", -4, none, false⟩ : Account).overdrawn_since := by
  norm_num [Bar.apply_agios]
  decide

/-- C6 amended: for every account whose overdraft date is set on entry, a
call that submits a fee transaction leaves the overdraft date exactly as it
was, so repeated runs in one uninterrupted overdrawn episode keep charging
once the threshold is first crossed. -/
theorem apply_agios_charge_preserves_date (self : Bar) (today d : ℤ)
    (acc : Account) (hs : acc.overdrawn_since = some d)
    (hfee : (self.apply_agios today acc).feeTxns ≠ []) :
    (self.apply_agios today acc).account.overdrawn_since = some d := by
  rcases lt_or_le acc.money 0 with hm | hm
  · rw [apply_agios_overdrawn_set self today d acc hm hs] at hfee ⊢
    by_cases hc : self.settings.agios_enabled = true ∧
        self.settings.agios_threshold ≤ ((today - d : ℤ) : ℚ)
    · rw [if_pos hc]
      exact hs
    · rw [if_neg hc] at hfee
      simp at hfee
  · rw [apply_agios_recover self today d acc hm hs] at hfee
    simp at hfee

/-- C6 amended witness: overdrawn since day 0, charged on day 5, and the
overdraft date is still day 0 afterwards. -/
theorem apply_agios_charge_preserves_date_witness :
    (Bar.apply_agios ⟨"b", "B", ⟨true, 2, 1/20⟩⟩ 5
        ⟨"b", "u", -10, some 0, false⟩).account.overdrawn_since = some 0 :=
  apply_agios_charge_preserves_date ⟨"b", "B", ⟨true, 2, 1/20⟩⟩ 5 0
    ⟨"b", "u", -10, some 0, false⟩ rfl (by norm_num [Bar.apply_agios])

/-- C7: a ranking request with no valid bar context yields the distinct
`HttpResponseBadRequest "I can only give a ranking within a bar"` failure
and never a 200 ranking response, empty or otherwise. -/
theorem ranking_without_bar_returns_error (req : RankRequest)
    (accounts : List Account) (h : req.bar = none) :
    AccountViewSet.ranking req accounts =
      .badRequest "I can only give a ranking within a bar" ∧
    ∀ body status, AccountViewSet.ranking req accounts ≠ .ok body status := by
  have hr : compute_account_ranking req accounts = none := by
    simp [compute_account_ranking, h]
  refine ⟨?_, ?_⟩
  · simp [AccountViewSet.ranking, hr]
  · intro body status
    simp [AccountViewSet.ranking, hr]

/-- C7 witness: the bar-less request over any account table is rejected. -/
theorem ranking_without_bar_returns_error_witness :
    AccountViewSet.ranking ⟨none⟩ [] =
      .badRequest "I can only give a ranking within a bar" ∧
    AccountViewSet.ranking ⟨none⟩ [] ≠ .ok [] 200 :=
  ⟨(ranking_without_bar_returns_error ⟨none⟩ [] rfl).1,
   (ranking_without_bar_returns_error ⟨none⟩ [] rfl).2 [] 200⟩

/-- C8: after `Bar.save` the settings row keyed by the bar exists; when it
already existed the settings table is unchanged (no second row, same
multiplicity), and saving the same bar again changes nothing further. -/
theorem bar_save_creates_settings_once (self : Bar) (db : CoreDB) :
    self.id ∈ (self.save db).settingsBars ∧
    (self.id ∈ db.settingsBars →
      (self.save db).settingsBars = db.settingsBars) ∧
    ((self.save db).settingsBars.count self.id =
      if self.id ∈ db.settingsBars then db.settingsBars.count self.id
      else db.settingsBars.count self.id + 1) ∧
    (self.save (self.save db)).settingsBars = (self.save db).settingsBars := by
  by_cases hmem : self.id ∈ db.settingsBars
  · refine ⟨?_, fun _ => ?_, ?_, ?_⟩ <;>
      simp [Bar.save, barSettingsGetOrCreate, hmem]
  · refine ⟨?_, fun hmem2 => absurd hmem2 hmem, ?_, ?_⟩ <;>
      simp [Bar.save, barSettingsGetOrCreate, hmem]

/-- C8 witness: saving a fresh bar into an empty store creates its settings
row, and saving it again leaves the settings table as it is. -/
theorem bar_save_creates_settings_once_witness :
    "b1" ∈ ((⟨"b1", "Bar one", ⟨true, 2, 1/20⟩⟩ : Bar).save ⟨[], []⟩).settingsBars ∧
    ((⟨"b1", "Bar one", ⟨true, 2, 1/20⟩⟩ : Bar).save
        ((⟨"b1", "Bar one", ⟨true, 2, 1/20⟩⟩ : Bar).save ⟨[], []⟩)).settingsBars =
      ((⟨"b1", "Bar one", ⟨true, 2, 1/20⟩⟩ : Bar).save ⟨[], []⟩).settingsBars :=
  ⟨(bar_save_creates_settings_once ⟨"b1", "Bar one", ⟨true, 2, 1/20⟩⟩ ⟨[], []⟩).1,
   (bar_save_creates_settings_once ⟨"b1", "Bar one", ⟨true, 2, 1/20⟩⟩ ⟨[], []⟩).2.2.2⟩

/-- C9: right after any `apply_agios` call, the account's overdraft date is
null exactly when the balance at entry to the call was ≥ 0. -/
theorem apply_agios_overdrawn_since_iff_negative (self : Bar) (today : ℤ)
    (acc : Account) :
    (self.apply_agios today acc).account.overdrawn_since = none ↔
      0 ≤ acc.money := by
  rcases hs : acc.overdrawn_since with _ | d
  · rcases lt_or_le acc.money 0 with hm | hm
    · rw [apply_agios_overdrawn_new self today acc hm hs]
      by_cases hc : self.settings.agios_enabled = true ∧
          self.settings.agios_threshold ≤ 0
      · simp [hc, not_le.mpr hm]
      · simp [hc, not_le.mpr hm]
    · rw [apply_agios_calm self today acc hm hs]
      simp [hs, hm]
  · rcases lt_or_le acc.money 0 with hm | hm
    · rw [apply_agios_overdrawn_set self today d acc hm hs]
      by_cases hc : self.settings.agios_enabled = true ∧
          self.settings.agios_threshold ≤ ((today - d : ℤ) : ℚ)
      · rw [if_pos hc]
        simp [hs, not_le.mpr hm]
      · rw [if_neg hc]
        simp [hs, not_le.mpr hm]
    · rw [apply_agios_recover self today d acc hm hs]
      simp [hm]

/-- C10: `count_accounts` counts exactly the accounts of the bar whose
soft-delete flag is false, and prepending a soft-deleted account to the
table never changes the count. -/
theorem count_accounts_counts_active (self : Bar) (accounts : List Account) :
    self.count_accounts accounts =
      accounts.countP (fun a => a.bar == self.id && a.deleted == false) ∧
    (∀ a : Account, a.deleted = true →
      self.count_accounts (a :: accounts) = self.count_accounts accounts) := by
  constructor
  · simp [Bar.count_accounts, account_set, List.filter_filter,
      List.countP_eq_length_filter, Bool.and_comm]
  · intro a ha
    by_cases hb : (a.bar == self.id)
    · simp [Bar.count_accounts, account_set, List.filter_cons, hb, ha]
    · simp [Bar.count_accounts, account_set, List.filter_cons, hb]

/-- C10 witness: a soft-deleted account of the bar is not counted. -/
theorem count_accounts_counts_active_witness :
    (⟨"b", "B", ⟨true, 2, 1/20⟩⟩ : Bar).count_accounts
        (⟨"b", "w", 1, none, true⟩ :: [⟨"b", "u", 3, none, false⟩]) =
      (⟨"b", "B", ⟨true, 2, 1/20⟩⟩ : Bar).count_accounts
        [⟨"b", "u", 3, none, false⟩] :=
  (count_accounts_counts_active ⟨"b", "B", ⟨true, 2, 1/20⟩⟩
    [⟨"b", "u", 3, none, false⟩]).2 ⟨"b", "w", 1, none, true⟩ rfl
